import Mathlib

/-!
Verification development for the `SchemaAgent` component of the
chat-with-database repository (`src/schema_agent.py`).

The Python class is embedded shallowly:
* the snapshot data model (`SchemaInfo`, `TableInfo`, `ColumnInfo`,
  `IndexInfo`, `ForeignKey`) mirrors the dictionaries the extractor builds;
* a Python `dict` is modelled as an association list whose keys are unique
  (uniqueness is stated as a hypothesis where a proof needs it);
* the mutable agent object is a record (`SchemaAgent`) and each method is a
  state-passing function; the database is an oracle argument (`DB`) saying
  whether the connection opens and what the catalog queries return;
* wall-clock instants and the cache TTL are integers (`datetime.now()`
  becomes an explicit `now` argument);
* Python truthiness tests on strings/lists are translated as the
  corresponding emptiness tests.
-/

set_option maxRecDepth 100000

namespace ChatWithDB

/-- One column of a table, as assembled by `_extract_table_info`:
name, rendered type string, nullability, optional default expression. -/
structure ColumnInfo where
  name : String
  type : String
  nullable : Bool
  default : Option String
deriving DecidableEq, Repr

/-- One index, as assembled by `_extract_table_info`. -/
structure IndexInfo where
  name : String
  definition : String
deriving DecidableEq, Repr

/-- Per-table information: ordered columns, primary-key column names,
indexes (`_extract_table_info`). -/
structure TableInfo where
  columns : List ColumnInfo
  primary_keys : List String
  indexes : List IndexInfo
deriving DecidableEq, Repr

/-- One foreign-key edge (`_extract_foreign_keys`). -/
structure ForeignKey where
  source_table : String
  source_column : String
  target_table : String
  target_column : String
  constraint_name : String
deriving DecidableEq, Repr

/-- The snapshot dictionary built by `extract_full_schema`:
`{'tables': {...}, 'foreign_keys': [...], 'extracted_at': ...}`.
The `tables` dict is an association list with unique keys. -/
structure SchemaInfo where
  tables : List (String × TableInfo)
  foreign_keys : List ForeignKey
  extracted_at : String
deriving DecidableEq, Repr

/-- The empty snapshot, used only as the (provably unreachable) default
when translating Python's `return self.schema_cache` on the hit path. -/
def emptySchema : SchemaInfo := ⟨[], [], ""⟩

/-- One line of `_generate_llm_schema_text`'s column loop:
`f"  - {col['name']}: {col['type']}{nullable}{default}{pk_marker}"`.
`if col['default']` is Python truthiness, so an empty-string default
renders nothing, exactly like `None`. -/
def renderColumnLine (pk_cols : List String) (col : ColumnInfo) : String :=
  let nullable := if col.nullable then "" else " NOT NULL"
  let dflt := match col.default with
    | some d => if d = "" then "" else " DEFAULT " ++ d
    | none => ""
  let pk_marker := if pk_cols.contains col.name then " (PK)" else ""
  "  - " ++ col.name ++ ": " ++ col.type ++ nullable ++ dflt ++ pk_marker

/-- The lines `_generate_llm_schema_text` appends for one table:
the header `f"\n{table_name}{pk_str}:"` followed by one line per column. -/
def renderTableBlock (table_name : String) (table_data : TableInfo) : List String :=
  let pk_cols := table_data.primary_keys
  let pk_str := if pk_cols.isEmpty then "" else " [PK: " ++ String.intercalate ", " pk_cols ++ "]"
  ("\n" ++ table_name ++ pk_str ++ ":") :: table_data.columns.map (renderColumnLine pk_cols)

/-- Lexicographic comparison of code-point sequences, the order Python's
`sorted` uses on strings.  (Defined from scratch so that it evaluates
inside the kernel.) -/
def charListLe : List Char → List Char → Bool
  | [], _ => true
  | _ :: _, [] => false
  | c :: cs, d :: ds => if c = d then charListLe cs ds else decide (c < d)

/-- Lexicographic comparison of strings by code points. -/
def strLe (a b : String) : Bool := charListLe a.data b.data

theorem charListLe_total : ∀ a b : List Char, charListLe a b = true ∨ charListLe b a = true
  | [], _ => Or.inl rfl
  | _ :: _, [] => Or.inr rfl
  | c :: cs, d :: ds => by
    by_cases hcd : c = d
    · subst hcd
      rcases charListLe_total cs ds with h | h <;> simp [charListLe, h]
    · rcases lt_or_gt_of_ne hcd with h | h
      · exact Or.inl (by simp [charListLe, hcd, h])
      · exact Or.inr (by simp [charListLe, Ne.symm hcd, h])

theorem charListLe_trans : ∀ a b c : List Char,
    charListLe a b = true → charListLe b c = true → charListLe a c = true
  | [], _, _, _, _ => rfl
  | _ :: _, [], _, h1, _ => by simp [charListLe] at h1
  | _ :: _, _ :: _, [], _, h2 => by simp [charListLe] at h2
  | x :: xs, y :: ys, z :: zs, h1, h2 => by
    by_cases hxy : x = y
    · subst hxy
      by_cases hxz : x = z
      · subst hxz
        simp only [charListLe, if_pos rfl] at h1 h2 ⊢
        exact charListLe_trans xs ys zs h1 h2
      · simpa [charListLe, hxz] using (by simpa [charListLe, hxz] using h2 : x < z)
    · by_cases hyz : y = z
      · subst hyz
        simpa [charListLe, hxy] using (by simpa [charListLe, hxy] using h1 : x < y)
      · have hlt1 : x < y := by simpa [charListLe, hxy] using h1
        have hlt2 : y < z := by simpa [charListLe, hyz] using h2
        have hxz : x < z := lt_trans hlt1 hlt2
        simp [charListLe, ne_of_lt hxz, hxz]

theorem charListLe_antisymm : ∀ a b : List Char,
    charListLe a b = true → charListLe b a = true → a = b
  | [], [], _, _ => rfl
  | [], _ :: _, _, h2 => by simp [charListLe] at h2
  | _ :: _, [], h1, _ => by simp [charListLe] at h1
  | x :: xs, y :: ys, h1, h2 => by
    by_cases hxy : x = y
    · subst hxy
      simp only [charListLe, if_pos rfl] at h1 h2
      exact congrArg (x :: ·) (charListLe_antisymm xs ys h1 h2)
    · have hlt1 : x < y := by simpa [charListLe, hxy] using h1
      have hlt2 : y < x := by simpa [charListLe, Ne.symm hxy] using h2
      exact absurd hlt2 (not_lt_of_gt hlt1)

theorem strLe_antisymm (a b : String) (h1 : strLe a b = true) (h2 : strLe b a = true) : a = b := by
  cases a; cases b
  exact congrArg String.mk (charListLe_antisymm _ _ h1 h2)

/-- Ordering of table entries by name, modelling Python's
`sorted(schema_info['tables'].items())` (dict keys are unique, so the
sort compares keys only). -/
def keyLE (a b : String × TableInfo) : Prop := strLe a.1 b.1 = true

instance : DecidableRel keyLE := fun a b => inferInstanceAs (Decidable (strLe a.1 b.1 = true))

instance : IsTotal (String × TableInfo) keyLE :=
  ⟨fun a b => charListLe_total a.1.data b.1.data⟩

instance : IsTrans (String × TableInfo) keyLE :=
  ⟨fun a b c h1 h2 => charListLe_trans a.1.data b.1.data c.1.data h1 h2⟩

/-- Strict strengthening of `keyLE` used to conclude that two sorted
arrangements of the same duplicate-free table mapping coincide. -/
def keyLT (a b : String × TableInfo) : Prop := keyLE a b ∧ a.1 ≠ b.1

instance : IsAntisymm (String × TableInfo) keyLT :=
  ⟨fun a b h1 h2 => absurd (strLe_antisymm a.1 b.1 h1.1 h2.1) h1.2⟩

/-- `sorted(schema_info['tables'].items())`. -/
def sortedTables (tables : List (String × TableInfo)) : List (String × TableInfo) :=
  List.insertionSort keyLE tables

/-- The table section of the rendered text: every table's block, in
alphabetical order of table names. -/
def tableSection (schema_info : SchemaInfo) : List String :=
  (sortedTables schema_info.tables).flatMap (fun p => renderTableBlock p.1 p.2)

/-- One line of the foreign-key section:
`f"{fk['source_table']}.{fk['source_column']} -> {fk['target_table']}.{fk['target_column']}"`. -/
def renderForeignKeyLine (fk : ForeignKey) : String :=
  fk.source_table ++ "." ++ fk.source_column ++ " -> " ++ fk.target_table ++ "." ++ fk.target_column

/-- `_generate_llm_schema_text`: header, per-table blocks in sorted order,
foreign-key section when the edge list is non-empty (Python truthiness of
the list), metadata footer; all joined with newlines. -/
def generate_llm_schema_text (schema_info : SchemaInfo) : String :=
  let fkLines :=
    if schema_info.foreign_keys.isEmpty then []
    else "\n=== FOREIGN KEY RELATIONSHIPS ===" :: schema_info.foreign_keys.map renderForeignKeyLine
  let metaLines := ["\n=== METADATA ===",
    "Total Tables: " ++ toString schema_info.tables.length,
    "Extracted At: " ++ schema_info.extracted_at]
  String.intercalate "\n" ("=== DATABASE SCHEMA ===\n" :: (tableSection schema_info ++ fkLines ++ metaLines))

/-- The agent's fields (`__init__`): TTL (`timedelta` modelled as an
integer duration) and the three cache slots, all starting at `None`. -/
structure SchemaAgent where
  cache_duration : Int
  schema_cache : Option SchemaInfo
  cache_timestamp : Option Int
  full_schema_text : Option String
deriving DecidableEq, Repr

/-- `SchemaAgent.__init__(db_config, cache_duration_minutes)`: the three
cache fields start as `None`. -/
def SchemaAgent.init (cache_duration_minutes : Int) : SchemaAgent :=
  ⟨cache_duration_minutes, none, none, none⟩

/-- `_is_cache_valid`: `False` when either the snapshot or the timestamp is
`None`, otherwise `datetime.now() - self.cache_timestamp < self.cache_duration`. -/
def is_cache_valid (now : Int) (a : SchemaAgent) : Bool :=
  match a.schema_cache, a.cache_timestamp with
  | some _, some ts => decide (now - ts < a.cache_duration)
  | _, _ => false

/-- What the catalog introspection queries yield on a successfully opened
connection: either some query raises, or the full set of structural facts
(the per-table loop plus the one-pass foreign-key read). -/
inductive CatalogRead where
  | failure
  | success (tables : List (String × TableInfo)) (foreign_keys : List ForeignKey)

/-- The database oracle for one extraction call: `psycopg2.connect` either
fails or yields a connection over which the catalog is read. -/
inductive DB where
  | unreachable
  | connected (read : CatalogRead)

/-- The error taxonomy of a failed extraction. -/
inductive ExtractError where
  | connectionError
  | catalogQueryError
deriving DecidableEq, Repr

/-- `extract_full_schema(force_refresh)`: return the cached snapshot if the
cache is valid and no refresh is forced; otherwise connect, run every
introspection query, and only then (all queries having succeeded) install
the snapshot, the timestamp, and the freshly rendered text.  In the
source the three assignments (lines 88-90) follow every fallible
operation, so the error cases leave the agent untouched. -/
def extract_full_schema (db : DB) (now : Int) (force_refresh : Bool) (a : SchemaAgent) :
    Except ExtractError SchemaInfo × SchemaAgent :=
  if !force_refresh && is_cache_valid now a then
    -- `return self.schema_cache`: validity guarantees the snapshot is present,
    -- so the default is unreachable.
    (.ok (a.schema_cache.getD emptySchema), a)
  else
    match db with
    | .unreachable => (.error .connectionError, a)
    | .connected .failure => (.error .catalogQueryError, a)
    | .connected (.success tables fks) =>
      let schema_info : SchemaInfo :=
        { tables := tables, foreign_keys := fks, extracted_at := toString now }
      let a' : SchemaAgent :=
        { a with
          schema_cache := some schema_info,
          cache_timestamp := some now,
          full_schema_text := some (generate_llm_schema_text schema_info) }
      (.ok schema_info, a')

/-- `clear_cache`: reset all three cache fields to `None`. -/
def clear_cache (a : SchemaAgent) : SchemaAgent :=
  { a with schema_cache := none, cache_timestamp := none, full_schema_text := none }

/-- `get_schema_for_llm(force_refresh)`: serve the cached rendered text when
it is present (and non-empty, by Python truthiness) and the cache is valid;
otherwise delegate to `extract_full_schema` and return the then-current
`full_schema_text` field. -/
def get_schema_for_llm (db : DB) (now : Int) (force_refresh : Bool) (a : SchemaAgent) :
    Except ExtractError String × SchemaAgent :=
  if !force_refresh && (match a.full_schema_text with
      | some t => t != ""
      | none => false) && is_cache_valid now a then
    (.ok (a.full_schema_text.getD ""), a)
  else
    match extract_full_schema db now force_refresh a with
    | (.error e, a') => (.error e, a')
    | (.ok _, a') => (.ok (a'.full_schema_text.getD ""), a')

/-- Substring occurrence, modelling Python's `needle in haystack` on
strings. -/
def strContains (haystack needle : String) : Bool :=
  decide (needle.data <:+: haystack.data)

/-- Character-wise lowercasing, modelling Python's `str.lower()`. -/
def pyToLower (s : String) : String := ⟨s.data.map Char.toLower⟩

/-- The pure matching core of `get_relevant_tables`, applied to the cached
snapshot: keep every table whose lowercased name occurs in the lowercased
query, or one of whose lowercased column names does; fall back to all
table names when nothing matches. -/
def get_relevant_tables_of (schema : SchemaInfo) (query : String) : List String :=
  let query_lower := pyToLower query
  let relevant_tables := (schema.tables.filter (fun p =>
      strContains query_lower (pyToLower p.1) ||
      p.2.columns.any (fun col => strContains query_lower (pyToLower col.name)))).map Prod.fst
  if relevant_tables.isEmpty then schema.tables.map Prod.fst else relevant_tables

/-- `get_relevant_tables(query)`: extract first if no snapshot is cached
(`if not self.schema_cache`), then run the matcher on the cached snapshot.
On the extraction path the snapshot just installed is the one returned by
`extract_full_schema`. -/
def get_relevant_tables (db : DB) (now : Int) (query : String) (a : SchemaAgent) :
    Except ExtractError (List String) × SchemaAgent :=
  match a.schema_cache with
  | some schema => (.ok (get_relevant_tables_of schema query), a)
  | none =>
    match extract_full_schema db now false a with
    | (.error e, a') => (.error e, a')
    | (.ok schema, a') => (.ok (get_relevant_tables_of schema query), a')

/-- The filtered snapshot built inside `get_partial_schema`: the dict
comprehension `{name: tables[name] for name in table_names if name in tables}`
(iteration over `table_names`, first occurrence wins, unknown names
dropped), the foreign-key filter, and the carried-over timestamp. -/
def filteredSnapshot (schema : SchemaInfo) (table_names : List String) : SchemaInfo :=
  { tables := table_names.dedup.filterMap
      (fun name => (schema.tables.lookup name).map (fun t => (name, t))),
    foreign_keys := schema.foreign_keys.filter (fun fk =>
      table_names.contains fk.source_table || table_names.contains fk.target_table),
    extracted_at := schema.extracted_at }

/-- `get_partial_schema(table_names)`: extract first if no snapshot is
cached, then render the filtered snapshot with the same renderer. -/
def get_partial_schema (db : DB) (now : Int) (table_names : List String) (a : SchemaAgent) :
    Except ExtractError String × SchemaAgent :=
  match a.schema_cache with
  | some schema => (.ok (generate_llm_schema_text (filteredSnapshot schema table_names)), a)
  | none =>
    match extract_full_schema db now false a with
    | (.error e, a') => (.error e, a')
    | (.ok schema, a') => (.ok (generate_llm_schema_text (filteredSnapshot schema table_names)), a')

/-- `get_table_sample_data(table_name, limit)` builds its SQL text by
f-string interpolation of the table name; only the limit travels as a
bound parameter.  The cache fields are never consulted, hence the unused
agent argument. -/
def get_table_sample_data (_a : SchemaAgent) (table_name : String) (limit : Int) :
    String × List Int :=
  ("SELECT * FROM " ++ table_name ++ " LIMIT %s;", [limit])

/-- The JSON documents `json.dump` can emit for a snapshot (objects keep
field order, exactly as Python dicts do). -/
inductive Json where
  | null
  | str (s : String)
  | bool (b : Bool)
  | arr (items : List Json)
  | obj (fields : List (String × Json))

/-- Serialization of one column dict, in the construction order of
`_extract_table_info` (`name`, `type`, `nullable`, `default`). -/
def columnToJson (c : ColumnInfo) : Json :=
  .obj [("name", .str c.name), ("type", .str c.type), ("nullable", .bool c.nullable),
    ("default", match c.default with
      | some d => .str d
      | none => .null)]

/-- Serialization of one index dict (`name`, `definition`). -/
def indexToJson (i : IndexInfo) : Json :=
  .obj [("name", .str i.name), ("definition", .str i.definition)]

/-- Serialization of one table dict (`columns`, `primary_keys`, `indexes`). -/
def tableInfoToJson (t : TableInfo) : Json :=
  .obj [("columns", .arr (t.columns.map columnToJson)),
    ("primary_keys", .arr (t.primary_keys.map .str)),
    ("indexes", .arr (t.indexes.map indexToJson))]

/-- Serialization of one foreign-key dict, in the construction order of
`_extract_foreign_keys`. -/
def foreignKeyToJson (fk : ForeignKey) : Json :=
  .obj [("source_table", .str fk.source_table), ("source_column", .str fk.source_column),
    ("target_table", .str fk.target_table), ("target_column", .str fk.target_column),
    ("constraint_name", .str fk.constraint_name)]

/-- Serialization of the whole snapshot, in the construction order of
`extract_full_schema` (`tables`, `foreign_keys`, `extracted_at`):
the document `json.dump(self.schema_cache, f)` writes. -/
def schemaToJson (s : SchemaInfo) : Json :=
  .obj [("tables", .obj (s.tables.map (fun p => (p.1, tableInfoToJson p.2)))),
    ("foreign_keys", .arr (s.foreign_keys.map foreignKeyToJson)),
    ("extracted_at", .str s.extracted_at)]

/-- The top-level keys of a JSON object. -/
def topLevelKeys : Json → List String
  | .obj fields => fields.map Prod.fst
  | _ => []

/-- Option-traversal of a parsing function over a JSON array. -/
def parseJsonList (f : Json → Option α) : List Json → Option (List α)
  | [] => some []
  | j :: rest => do
    let a ← f j
    let as ← parseJsonList f rest
    return a :: as

/-- Parse back one column dict. -/
def columnFromJson : Json → Option ColumnInfo
  | .obj [("name", .str n), ("type", .str t), ("nullable", .bool b), ("default", d)] =>
    match d with
    | .null => some ⟨n, t, b, none⟩
    | .str s => some ⟨n, t, b, some s⟩
    | _ => none
  | _ => none

/-- Parse back one index dict. -/
def indexFromJson : Json → Option IndexInfo
  | .obj [("name", .str n), ("definition", .str d)] => some ⟨n, d⟩
  | _ => none

/-- Parse back one JSON string. -/
def strFromJson : Json → Option String
  | .str s => some s
  | _ => none

/-- Parse back one table dict. -/
def tableInfoFromJson : Json → Option TableInfo
  | .obj [("columns", .arr cs), ("primary_keys", .arr pks), ("indexes", .arr idxs)] => do
    let columns ← parseJsonList columnFromJson cs
    let primary_keys ← parseJsonList strFromJson pks
    let indexes ← parseJsonList indexFromJson idxs
    return ⟨columns, primary_keys, indexes⟩
  | _ => none

/-- Parse back the table-name → table-info mapping. -/
def tablePairsFromJson : List (String × Json) → Option (List (String × TableInfo))
  | [] => some []
  | (n, j) :: rest => do
    let t ← tableInfoFromJson j
    let ts ← tablePairsFromJson rest
    return (n, t) :: ts

/-- Parse back one foreign-key dict. -/
def foreignKeyFromJson : Json → Option ForeignKey
  | .obj [("source_table", .str st), ("source_column", .str sc),
      ("target_table", .str tt), ("target_column", .str tc),
      ("constraint_name", .str cn)] => some ⟨st, sc, tt, tc, cn⟩
  | _ => none

/-- Parse back the whole persisted snapshot. -/
def schemaFromJson : Json → Option SchemaInfo
  | .obj [("tables", .obj tfields), ("foreign_keys", .arr fks), ("extracted_at", .str ts)] => do
    let tables ← tablePairsFromJson tfields
    let foreign_keys ← parseJsonList foreignKeyFromJson fks
    return ⟨tables, foreign_keys, ts⟩
  | _ => none

/-- `save_schema_to_file(filepath)`: extract first if no snapshot is cached,
then dump the cached snapshot as JSON (the file system is abstracted away:
the function yields the document written). -/
def save_schema_to_file (db : DB) (now : Int) (a : SchemaAgent) :
    Except ExtractError Json × SchemaAgent :=
  match a.schema_cache with
  | some schema => (.ok (schemaToJson schema), a)
  | none =>
    match extract_full_schema db now false a with
    | (.error e, a') => (.error e, a')
    | (.ok schema, a') => (.ok (schemaToJson schema), a')

/-- The cache-coherence invariant of the agent: the three cache fields are
all `None` or all populated, and a populated rendered text is the
rendering of the populated snapshot. -/
def cacheConsistent (a : SchemaAgent) : Prop :=
  (a.schema_cache = none ∧ a.cache_timestamp = none ∧ a.full_schema_text = none) ∨
  (∃ s ts, a.schema_cache = some s ∧ a.cache_timestamp = some ts ∧
    a.full_schema_text = some (generate_llm_schema_text s))

/-- The `orders` table of the spec's example scenario. -/
def ordersTable : TableInfo :=
  { columns := [
      { name := "id", type := "integer", nullable := false, default := none },
      { name := "customer_id", type := "integer", nullable := true, default := none },
      { name := "total", type := "numeric(10,2)", nullable := false, default := none }],
    primary_keys := ["id"],
    indexes := [] }

/-- The `customers` table of the spec's example scenario. -/
def customersTable : TableInfo :=
  { columns := [
      { name := "id", type := "integer", nullable := false, default := none },
      { name := "name", type := "text", nullable := true, default := none }],
    primary_keys := ["id"],
    indexes := [] }

/-- The two-table snapshot of the spec's example scenario:
`orders(id PK, customer_id, total numeric(10,2) NOT NULL)`,
`customers(id PK, name text)`, one foreign key
`orders.customer_id -> customers.id`. -/
def exampleSnapshot : SchemaInfo :=
  { tables := [("customers", customersTable), ("orders", ordersTable)],
    foreign_keys := [
      { source_table := "orders", source_column := "customer_id",
        target_table := "customers", target_column := "id",
        constraint_name := "orders_customer_id_fkey" }],
    extracted_at := "2024-01-01T00:00:00" }

/-- An agent whose cache was populated (at instant 0, TTL 60) with the
example snapshot: the state after one successful extraction. -/
def examplePopulatedAgent : SchemaAgent :=
  { cache_duration := 60,
    schema_cache := some exampleSnapshot,
    cache_timestamp := some 0,
    full_schema_text := some (generate_llm_schema_text exampleSnapshot) }

/-! ### Supporting lemmas -/

/-- The snapshot a successful refresh at instant `now` assembles (lines
64-85 of the source). -/
def freshSnapshot (now : Int) (tables : List (String × TableInfo)) (fks : List ForeignKey) :
    SchemaInfo :=
  { tables := tables, foreign_keys := fks, extracted_at := toString now }

/-- The cache commit of a successful refresh (lines 88-90 of the source):
snapshot, timestamp, and freshly rendered text installed together. -/
def installSnapshot (a : SchemaAgent) (now : Int) (s : SchemaInfo) : SchemaAgent :=
  { a with
    schema_cache := some s,
    cache_timestamp := some now,
    full_schema_text := some (generate_llm_schema_text s) }

theorem extract_preserves_cacheConsistent (db : DB) (now : Int) (force : Bool)
    (a : SchemaAgent) (h : cacheConsistent a) :
    cacheConsistent (extract_full_schema db now force a).2 := by
  unfold extract_full_schema
  split
  · exact h
  · cases db with
    | unreachable => exact h
    | connected read =>
      cases read with
      | failure => exact h
      | success tables fks => exact Or.inr ⟨_, now, rfl, rfl, rfl⟩

theorem lookup_eq_some_iff_mem (l : List (String × TableInfo))
    (hnd : (l.map Prod.fst).Nodup) (n : String) (t : TableInfo) :
    l.lookup n = some t ↔ (n, t) ∈ l := by
  induction l with
  | nil => simp [List.lookup]
  | cons p ps ih =>
    rcases p with ⟨k, u⟩
    simp only [List.map_cons, List.nodup_cons] at hnd
    by_cases hnk : n = k
    · subst hnk
      have hcase : ((n, u) :: ps).lookup n = some u := by simp [List.lookup]
      rw [hcase]
      constructor
      · intro h
        rw [Option.some_inj] at h
        rw [← h]
        exact List.mem_cons_self _ _
      · intro h
        rcases List.mem_cons.mp h with h | h
        · rw [Prod.mk.injEq] at h
          rw [h.2]
        · exact absurd (List.mem_map.mpr ⟨(n, t), h, rfl⟩) hnd.1
    · have hcase : ((k, u) :: ps).lookup n = ps.lookup n := by
        simp only [List.lookup]
        rw [show (n == k) = false from beq_eq_false_iff_ne.mpr hnk]
      rw [hcase, ih hnd.2]
      constructor
      · exact fun h => List.mem_cons_of_mem _ h
      · intro h
        rcases List.mem_cons.mp h with h | h
        · exact absurd (congrArg Prod.fst h) hnk
        · exact h

theorem keys_of_lookup_filterMap (tables : List (String × TableInfo)) (l : List String) :
    (l.filterMap (fun n => (tables.lookup n).map (fun t => (n, t)))).map Prod.fst
      = l.filter (fun n => (tables.lookup n).isSome) := by
  induction l with
  | nil => rfl
  | cons n ns ih =>
    rcases hlk : tables.lookup n with _ | u <;>
      simp [List.filterMap_cons, List.filter_cons, hlk, ih]

theorem mem_filteredSnapshot_tables (s : SchemaInfo) (S : List String)
    (hnd : (s.tables.map Prod.fst).Nodup) (n : String) (t : TableInfo) :
    (n, t) ∈ (filteredSnapshot s S).tables ↔ ((n, t) ∈ s.tables ∧ n ∈ S) := by
  simp only [filteredSnapshot]
  rw [List.mem_filterMap]
  constructor
  · rintro ⟨name, hmem, hf⟩
    rcases hlk : s.tables.lookup name with _ | u
    · rw [hlk] at hf
      exact Option.noConfusion hf
    · rw [hlk] at hf
      have hf' : (name, u) = (n, t) := Option.some_inj.mp hf
      cases hf'
      exact ⟨(lookup_eq_some_iff_mem s.tables hnd n t).mp hlk, List.mem_dedup.mp hmem⟩
  · rintro ⟨hmem, hS⟩
    refine ⟨n, List.mem_dedup.mpr hS, ?_⟩
    rw [(lookup_eq_some_iff_mem s.tables hnd n t).mpr hmem]
    rfl

theorem filteredSnapshot_keys_nodup (s : SchemaInfo) (S : List String) :
    (((filteredSnapshot s S).tables).map Prod.fst).Nodup := by
  have h : ((filteredSnapshot s S).tables).map Prod.fst
      = S.dedup.filter (fun n => (s.tables.lookup n).isSome) :=
    keys_of_lookup_filterMap s.tables S.dedup
  rw [h]
  exact (List.nodup_dedup S).filter _

theorem pairwise_keyLT_of_sorted_nodup (l : List (String × TableInfo))
    (hs : List.Pairwise keyLE l) (hnd : (l.map Prod.fst).Nodup) :
    List.Pairwise keyLT l := by
  have hne : List.Pairwise (fun a b : String × TableInfo => a.1 ≠ b.1) l :=
    List.pairwise_map.mp hnd
  exact hs.and hne

theorem filteredSnapshot_tables_perm (s : SchemaInfo) (S : List String)
    (hnd : (s.tables.map Prod.fst).Nodup) :
    List.Perm (filteredSnapshot s S).tables
      (s.tables.filter (fun p => S.contains p.1)) := by
  have hP : ((filteredSnapshot s S).tables).Nodup :=
    List.Nodup.of_map Prod.fst (filteredSnapshot_keys_nodup s S)
  have hF : (s.tables.filter (fun p => S.contains p.1)).Nodup :=
    (List.Nodup.of_map Prod.fst hnd).sublist (List.filter_sublist s.tables)
  refine (List.perm_ext_iff_of_nodup hP hF).mpr ?_
  rintro ⟨n, t⟩
  rw [mem_filteredSnapshot_tables s S hnd n t, List.mem_filter]
  simp

theorem sortedTables_filteredSnapshot (s : SchemaInfo) (S : List String)
    (hnd : (s.tables.map Prod.fst).Nodup) :
    sortedTables (filteredSnapshot s S).tables
      = (sortedTables s.tables).filter (fun p => S.contains p.1) := by
  have hpermA : List.Perm (sortedTables (filteredSnapshot s S).tables)
      (filteredSnapshot s S).tables := List.perm_insertionSort keyLE _
  have hpermS : List.Perm (sortedTables s.tables) s.tables :=
    List.perm_insertionSort keyLE s.tables
  have hAB : List.Perm (sortedTables (filteredSnapshot s S).tables)
      ((sortedTables s.tables).filter (fun p => S.contains p.1)) :=
    (hpermA.trans (filteredSnapshot_tables_perm s S hnd)).trans
      ((hpermS.symm).filter (fun p => S.contains p.1))
  have hsortA : List.Pairwise keyLT (sortedTables (filteredSnapshot s S).tables) := by
    refine pairwise_keyLT_of_sorted_nodup _ (List.sorted_insertionSort keyLE _) ?_
    exact ((hpermA.map Prod.fst).nodup_iff).mpr (filteredSnapshot_keys_nodup s S)
  have hsortB : List.Pairwise keyLT
      ((sortedTables s.tables).filter (fun p => S.contains p.1)) := by
    refine pairwise_keyLT_of_sorted_nodup _
      ((List.sorted_insertionSort keyLE s.tables).sublist
        (List.filter_sublist (sortedTables s.tables))) ?_
    refine List.Nodup.sublist ?_ (((hpermS.map Prod.fst).nodup_iff).mpr hnd)
    exact List.Sublist.map Prod.fst (List.filter_sublist (sortedTables s.tables))
  exact List.eq_of_perm_of_sorted hAB hsortA hsortB

theorem columnFromJson_toJson (c : ColumnInfo) : columnFromJson (columnToJson c) = some c := by
  rcases c with ⟨n, t, b, d⟩
  rcases d with _ | d <;> rfl

theorem indexFromJson_toJson (i : IndexInfo) : indexFromJson (indexToJson i) = some i := rfl

theorem foreignKeyFromJson_toJson (fk : ForeignKey) :
    foreignKeyFromJson (foreignKeyToJson fk) = some fk := rfl

theorem parseJsonList_map (f : Json → Option α) (g : α → Json) (l : List α)
    (h : ∀ x ∈ l, f (g x) = some x) : parseJsonList f (l.map g) = some l := by
  induction l with
  | nil => rfl
  | cons x xs ih =>
    simp [parseJsonList, h x (List.mem_cons_self x xs),
      ih (fun y hy => h y (List.mem_cons_of_mem x hy))]

theorem tableInfoFromJson_toJson (t : TableInfo) :
    tableInfoFromJson (tableInfoToJson t) = some t := by
  rcases t with ⟨cols, pks, idxs⟩
  simp only [tableInfoToJson, tableInfoFromJson]
  rw [parseJsonList_map columnFromJson columnToJson cols (fun c _ => columnFromJson_toJson c),
    parseJsonList_map strFromJson .str pks (fun x _ => rfl),
    parseJsonList_map indexFromJson indexToJson idxs (fun i _ => indexFromJson_toJson i)]
  rfl

theorem tablePairsFromJson_map (l : List (String × TableInfo)) :
    tablePairsFromJson (l.map (fun p => (p.1, tableInfoToJson p.2))) = some l := by
  induction l with
  | nil => rfl
  | cons p ps ih =>
    simp [tablePairsFromJson, tableInfoFromJson_toJson p.2, ih]

/-! ### Claim theorems -/

/-- C1: whenever `extract_full_schema` fails — the connection cannot be
opened or an introspection query raises — the three cache fields
(`schema_cache`, `cache_timestamp`, `full_schema_text`) are exactly what
they were before the call; no half-populated snapshot is installed. -/
theorem extract_failure_preserves_cache (db : DB) (now : Int) (force_refresh : Bool)
    (a a' : SchemaAgent) (e : ExtractError)
    (h : extract_full_schema db now force_refresh a = (.error e, a')) :
    a'.schema_cache = a.schema_cache ∧
    a'.cache_timestamp = a.cache_timestamp ∧
    a'.full_schema_text = a.full_schema_text := by
  unfold extract_full_schema at h
  split at h
  · simp at h
  · cases db with
    | unreachable =>
      simp only [Prod.mk.injEq] at h
      rw [← h.2]
      exact ⟨rfl, rfl, rfl⟩
    | connected read =>
      cases read with
      | failure =>
        simp only [Prod.mk.injEq] at h
        rw [← h.2]
        exact ⟨rfl, rfl, rfl⟩
      | success tables fks => simp at h

/-- C1 witness: a stale populated agent whose refresh hits an unreachable
database keeps its previously installed snapshot. -/
theorem extract_failure_preserves_cache_witness :
    examplePopulatedAgent.schema_cache = examplePopulatedAgent.schema_cache ∧
    examplePopulatedAgent.cache_timestamp = examplePopulatedAgent.cache_timestamp ∧
    examplePopulatedAgent.full_schema_text = examplePopulatedAgent.full_schema_text :=
  extract_failure_preserves_cache .unreachable 100 false examplePopulatedAgent
    examplePopulatedAgent .connectionError rfl

/-- C2 counterexample: with a configured TTL of zero
(`SchemaAgent(db_config, cache_duration_minutes=0)` is accepted by the
constructor), a successful extraction at instant 0 leaves a cache that is
already invalid at that same instant, because validity requires
`now - timestamp < ttl` strictly.  So "immediately after a successful
extraction the cache is valid" fails as stated. -/
theorem is_cache_valid_zero_ttl_counterexample :
    (extract_full_schema (.connected (.success [] [])) 0 false (SchemaAgent.init 0)).1
      = .ok { tables := [], foreign_keys := [], extracted_at := "0" } ∧
    is_cache_valid 0
      (extract_full_schema (.connected (.success [] [])) 0 false (SchemaAgent.init 0)).2 = false :=
  ⟨rfl, rfl⟩

/-- C2 (amended): the cached snapshot is judged valid iff both a snapshot
and a timestamp are present and `now - cache_timestamp < cache_duration`
(strictly); immediately after a successful extraction the cache is valid
provided the configured TTL is positive; and once the elapsed time since
extraction equals or exceeds the TTL the cache is invalid. -/
theorem is_cache_valid_characterization (a : SchemaAgent) (now : Int) :
    (is_cache_valid now a = true ↔
      ∃ s ts, a.schema_cache = some s ∧ a.cache_timestamp = some ts ∧
        now - ts < a.cache_duration) ∧
    (∀ db force s a', extract_full_schema db now force a = (.ok s, a') →
      0 < a.cache_duration → is_cache_valid now a' = true) ∧
    (∀ s ts, a.schema_cache = some s → a.cache_timestamp = some ts →
      a.cache_duration ≤ now - ts → is_cache_valid now a = false) := by
  refine ⟨?_, ?_, ?_⟩
  · unfold is_cache_valid
    rcases hs : a.schema_cache with _ | s <;> rcases ht : a.cache_timestamp with _ | ts <;> simp
  · intro db force s a' h hpos
    unfold extract_full_schema at h
    split at h
    · rename_i hcond
      simp only [Prod.mk.injEq] at h
      rw [← h.2]
      exact (Bool.and_elim_right hcond)
    · cases db with
      | unreachable => simp at h
      | connected read =>
        cases read with
        | failure => simp at h
        | success tables fks =>
          simp only [Prod.mk.injEq] at h
          rw [← h.2]
          unfold is_cache_valid
          simp [hpos]
  · intro s ts hs ht hle
    unfold is_cache_valid
    rw [hs, ht]
    simp [not_lt_of_ge hle]

/-- C2 witness: on the populated example agent the characterization gives
validity at instant 5 and staleness at instant 100 (TTL 60). -/
theorem is_cache_valid_characterization_witness :
    is_cache_valid 5 examplePopulatedAgent = true ∧
    is_cache_valid 100 examplePopulatedAgent = false :=
  ⟨(is_cache_valid_characterization examplePopulatedAgent 5).1.mpr
      ⟨exampleSnapshot, 0, rfl, rfl, by decide⟩,
    (is_cache_valid_characterization examplePopulatedAgent 100).2.2 exampleSnapshot 0 rfl rfl
      (by decide)⟩

/-- C3: the rendered text lists tables alphabetically, each as a header
line (PK bracket omitted exactly when the table has no primary-key
columns) followed by one line per column in ordinal order with the
`NOT NULL` / `DEFAULT` / `(PK)` suffixes appended under the stated
conditions; the two-table example renders the `customers [PK: id]:` and
`orders [PK: id]:` blocks, the foreign-key line, and `Total Tables: 2`.
(The `DEFAULT`-iff-present reading needs defaults that are never the
empty string, which the catalog guarantees: `column_default` is `NULL`
or a non-empty expression.) -/
theorem generate_llm_schema_text_format (s : SchemaInfo)
    (hwf : ∀ p ∈ s.tables, ∀ col ∈ p.2.columns, col.default ≠ some "") :
    List.Pairwise keyLE (sortedTables s.tables) ∧
    tableSection s = (sortedTables s.tables).flatMap (fun p => renderTableBlock p.1 p.2) ∧
    (∀ p ∈ s.tables, renderTableBlock p.1 p.2 =
      ("\n" ++ p.1 ++
          (if p.2.primary_keys = [] then ""
            else " [PK: " ++ String.intercalate ", " p.2.primary_keys ++ "]") ++ ":") ::
        p.2.columns.map (fun col =>
          "  - " ++ col.name ++ ": " ++ col.type ++
            (if col.nullable then "" else " NOT NULL") ++
            (match col.default with
              | some d => " DEFAULT " ++ d
              | none => "") ++
            (if p.2.primary_keys.contains col.name then " (PK)" else ""))) ∧
    strContains (generate_llm_schema_text exampleSnapshot) "\ncustomers [PK: id]:" = true ∧
    strContains (generate_llm_schema_text exampleSnapshot) "\norders [PK: id]:" = true ∧
    strContains (generate_llm_schema_text exampleSnapshot)
      "=== FOREIGN KEY RELATIONSHIPS ===\norders.customer_id -> customers.id" = true ∧
    strContains (generate_llm_schema_text exampleSnapshot) "Total Tables: 2" = true := by
  refine ⟨List.sorted_insertionSort keyLE s.tables, rfl, ?_, by decide, by decide, by decide,
    by decide⟩
  intro p hp
  have hblock : renderTableBlock p.1 p.2 =
      ("\n" ++ p.1 ++ (if p.2.primary_keys.isEmpty then ""
          else " [PK: " ++ String.intercalate ", " p.2.primary_keys ++ "]") ++ ":") ::
        p.2.columns.map (renderColumnLine p.2.primary_keys) := rfl
  have hcols : ∀ col ∈ p.2.columns, renderColumnLine p.2.primary_keys col =
      "  - " ++ col.name ++ ": " ++ col.type ++
        (if col.nullable then "" else " NOT NULL") ++
        (match col.default with
          | some d => " DEFAULT " ++ d
          | none => "") ++
        (if p.2.primary_keys.contains col.name then " (PK)" else "") := by
    intro col hcol
    have hd := hwf p hp col hcol
    unfold renderColumnLine
    rcases hdft : col.default with _ | d
    · rfl
    · have hne : ¬d = "" := fun hEq => hd (by rw [hdft, hEq])
      simp [hne]
  rw [hblock, List.map_congr_left hcols]
  rcases hpk : p.2.primary_keys with _ | ⟨k, ks⟩ <;> simp

/-- C3 witness: the format theorem applied to the example snapshot (whose
defaults are all absent) yields the example-scenario render facts. -/
theorem generate_llm_schema_text_format_witness :
    strContains (generate_llm_schema_text exampleSnapshot) "\ncustomers [PK: id]:" = true ∧
    strContains (generate_llm_schema_text exampleSnapshot) "Total Tables: 2" = true :=
  ⟨(generate_llm_schema_text_format exampleSnapshot (by decide)).2.2.2.1,
    (generate_llm_schema_text_format exampleSnapshot (by decide)).2.2.2.2.2.2⟩

/-- The matcher inside `get_relevant_tables`: names of the tables whose
lowercased name, or one of whose lowercased column names, occurs in the
lowercased query. -/
def matchingTables (schema : SchemaInfo) (query : String) : List String :=
  (schema.tables.filter (fun p =>
      strContains (pyToLower query) (pyToLower p.1) ||
      p.2.columns.any (fun col => strContains (pyToLower query) (pyToLower col.name)))).map
    Prod.fst

/-- C4: `get_relevant_tables` returns exactly the tables whose own name
occurs case-insensitively in the query, or one of whose column names
does; when that set is empty it falls back to all table names, so the
result is never empty when the snapshot has a table. -/
theorem get_relevant_tables_spec (schema : SchemaInfo) (query : String) :
    (∀ name, name ∈ matchingTables schema query ↔
      ∃ t, (name, t) ∈ schema.tables ∧
        (strContains (pyToLower query) (pyToLower name) ||
          t.columns.any (fun col => strContains (pyToLower query) (pyToLower col.name)))
          = true) ∧
    (matchingTables schema query ≠ [] →
      get_relevant_tables_of schema query = matchingTables schema query) ∧
    (matchingTables schema query = [] →
      get_relevant_tables_of schema query = schema.tables.map Prod.fst) ∧
    (schema.tables ≠ [] → get_relevant_tables_of schema query ≠ []) := by
  have hdef : get_relevant_tables_of schema query =
      if (matchingTables schema query).isEmpty then schema.tables.map Prod.fst
      else matchingTables schema query := rfl
  refine ⟨?_, ?_, ?_, ?_⟩
  · intro name
    constructor
    · intro h
      obtain ⟨p, hp, hfst⟩ := List.mem_map.mp h
      obtain ⟨hmem, hpred⟩ := List.mem_filter.mp hp
      exact ⟨p.2, by rwa [← hfst], by rwa [← hfst]⟩
    · rintro ⟨t, hmem, hpred⟩
      exact List.mem_map.mpr ⟨(name, t), List.mem_filter.mpr ⟨hmem, hpred⟩, rfl⟩
  · intro h
    rw [hdef, if_neg (by simpa [List.isEmpty_iff] using h)]
  · intro h
    rw [hdef, if_pos (by simpa [List.isEmpty_iff] using h)]
  · intro h
    rw [hdef]
    split
    · simpa [List.map_eq_nil_iff] using h
    · rename_i hne
      simpa [List.isEmpty_iff] using hne

/-- C4 witness: on the example snapshot, "show me ORDERS" matches exactly
the `orders` table, and a query with no recognizable identifier falls
back to all table names. -/
theorem get_relevant_tables_spec_witness :
    get_relevant_tables_of exampleSnapshot "show me ORDERS" = ["orders"] ∧
    get_relevant_tables_of exampleSnapshot "hello" = ["customers", "orders"] :=
  ⟨by
    rw [(get_relevant_tables_spec exampleSnapshot "show me ORDERS").2.1 (by decide)]
    decide,
   by
    rw [(get_relevant_tables_spec exampleSnapshot "hello").2.2.1 (by decide)]
    decide⟩

/-- C5: `get_partial_schema` renders, with the same renderer as the full
schema, a filtered snapshot holding exactly the snapshot's tables whose
names are in the requested list (unknown names silently dropped) and
exactly the foreign-key edges whose source or target table is requested;
its table section is byte-identical to the corresponding table blocks of
the full rendering (the sorted full table sequence filtered to the
requested names). -/
theorem get_partial_schema_spec (db : DB) (now : Int) (a : SchemaAgent) (s : SchemaInfo)
    (table_names : List String) (hnd : (s.tables.map Prod.fst).Nodup)
    (ha : a.schema_cache = some s) :
    get_partial_schema db now table_names a
      = (.ok (generate_llm_schema_text (filteredSnapshot s table_names)), a) ∧
    (∀ n t, (n, t) ∈ (filteredSnapshot s table_names).tables ↔
      ((n, t) ∈ s.tables ∧ n ∈ table_names)) ∧
    (filteredSnapshot s table_names).foreign_keys
      = s.foreign_keys.filter (fun fk =>
          table_names.contains fk.source_table || table_names.contains fk.target_table) ∧
    tableSection (filteredSnapshot s table_names)
      = ((sortedTables s.tables).filter (fun p => table_names.contains p.1)).flatMap
          (fun p => renderTableBlock p.1 p.2) := by
  refine ⟨by simp only [get_partial_schema, ha], mem_filteredSnapshot_tables s table_names hnd,
    rfl, ?_⟩
  have hsec : tableSection (filteredSnapshot s table_names)
      = (sortedTables (filteredSnapshot s table_names).tables).flatMap
          (fun p => renderTableBlock p.1 p.2) := rfl
  rw [hsec, sortedTables_filteredSnapshot s table_names hnd]

/-- C5 witness: restricting the example snapshot to `["orders"]` keeps the
`orders` table and the single foreign-key edge, and the partial render is
produced by the shared renderer on that filtered snapshot. -/
theorem get_partial_schema_spec_witness :
    get_partial_schema .unreachable 0 ["orders"] examplePopulatedAgent
      = (.ok (generate_llm_schema_text (filteredSnapshot exampleSnapshot ["orders"])),
        examplePopulatedAgent) ∧
    tableSection (filteredSnapshot exampleSnapshot ["orders"])
      = ((sortedTables exampleSnapshot.tables).filter
            (fun p => (["orders"] : List String).contains p.1)).flatMap
          (fun p => renderTableBlock p.1 p.2) :=
  ⟨(get_partial_schema_spec .unreachable 0 examplePopulatedAgent exampleSnapshot ["orders"]
      (by decide) rfl).1,
    (get_partial_schema_spec .unreachable 0 examplePopulatedAgent exampleSnapshot ["orders"]
      (by decide) rfl).2.2.2⟩

/-- C6: with a valid cache and `force_refresh = False`, `extract_full_schema`
returns the cached snapshot, changes nothing, and never consults the
database (the result is independent of the database oracle); with
`force_refresh = True`, or an invalid cache, it runs the full catalog
read, installs the new snapshot and timestamp, replaces the rendered text
with freshly rendered text, and returns the new snapshot. -/
theorem extract_full_schema_cache_policy (db db' : DB) (now : Int) (a : SchemaAgent)
    (tables : List (String × TableInfo)) (fks : List ForeignKey) (force_refresh : Bool) :
    (∀ s, a.schema_cache = some s → is_cache_valid now a = true →
      extract_full_schema db now false a = (.ok s, a) ∧
      extract_full_schema db now false a = extract_full_schema db' now false a) ∧
    ((force_refresh = true ∨ is_cache_valid now a = false) →
      extract_full_schema (.connected (.success tables fks)) now force_refresh a =
        (.ok (freshSnapshot now tables fks),
          installSnapshot a now (freshSnapshot now tables fks))) := by
  constructor
  · intro s hs hv
    constructor
    · unfold extract_full_schema
      rw [hv]
      simp [hs]
    · unfold extract_full_schema
      rw [hv]
      simp
  · intro h
    unfold extract_full_schema
    rcases h with h | h
    · subst h
      simp [freshSnapshot, installSnapshot]
    · rw [h]
      simp [freshSnapshot, installSnapshot]

/-- C6 witness: the populated example agent serves its cache at instant 0
with an unreachable database, and a forced refresh at instant 0 installs
the empty catalog's snapshot with freshly rendered text. -/
theorem extract_full_schema_cache_policy_witness :
    extract_full_schema .unreachable 0 false examplePopulatedAgent
      = (.ok exampleSnapshot, examplePopulatedAgent) ∧
    extract_full_schema (.connected (.success [] [])) 0 true examplePopulatedAgent
      = (.ok (freshSnapshot 0 [] []),
        installSnapshot examplePopulatedAgent 0 (freshSnapshot 0 [] [])) :=
  ⟨((extract_full_schema_cache_policy .unreachable .unreachable 0 examplePopulatedAgent [] []
      true).1 exampleSnapshot rfl (by decide)).1,
    (extract_full_schema_cache_policy .unreachable .unreachable 0 examplePopulatedAgent [] []
      true).2 (Or.inl rfl)⟩

/-- C7: `save_schema_to_file` writes the JSON serialization of the cached
snapshot; the document's top-level keys are `tables`, `foreign_keys`,
`extracted_at` (with each table mapped to its `columns`/`primary_keys`/
`indexes` object), and parsing the document back yields the snapshot
field-for-field. -/
theorem save_schema_roundtrip (db : DB) (now : Int) (a : SchemaAgent) (s : SchemaInfo)
    (h : a.schema_cache = some s) :
    save_schema_to_file db now a = (.ok (schemaToJson s), a) ∧
    topLevelKeys (schemaToJson s) = ["tables", "foreign_keys", "extracted_at"] ∧
    schemaToJson s = .obj [
      ("tables", .obj (s.tables.map (fun p => (p.1, tableInfoToJson p.2)))),
      ("foreign_keys", .arr (s.foreign_keys.map foreignKeyToJson)),
      ("extracted_at", .str s.extracted_at)] ∧
    (∀ t : TableInfo, topLevelKeys (tableInfoToJson t) = ["columns", "primary_keys", "indexes"]) ∧
    schemaFromJson (schemaToJson s) = some s := by
  refine ⟨by simp only [save_schema_to_file, h], rfl, rfl, fun t => rfl, ?_⟩
  rcases s with ⟨tables, fks, ts⟩
  simp only [schemaToJson, schemaFromJson]
  rw [tablePairsFromJson_map tables, parseJsonList_map foreignKeyFromJson foreignKeyToJson fks
    (fun fk _ => foreignKeyFromJson_toJson fk)]
  rfl

/-- C7 witness: save and round-trip on the populated example agent. -/
theorem save_schema_roundtrip_witness :
    save_schema_to_file .unreachable 0 examplePopulatedAgent
      = (.ok (schemaToJson exampleSnapshot), examplePopulatedAgent) ∧
    schemaFromJson (schemaToJson exampleSnapshot) = some exampleSnapshot :=
  ⟨(save_schema_roundtrip .unreachable 0 examplePopulatedAgent exampleSnapshot rfl).1,
    (save_schema_roundtrip .unreachable 0 examplePopulatedAgent exampleSnapshot rfl).2.2.2.2⟩

/-- C8: `get_table_sample_data` builds its query by substituting the table
name verbatim into `"SELECT * FROM <t> LIMIT %s;"`; the table name is not
parameter-bound and is not validated against the cached table set (the
result does not depend on the agent at all); only the row limit is a
bound parameter. -/
theorem get_table_sample_data_unvalidated (a a' : SchemaAgent) (table_name : String)
    (limit : Int) :
    get_table_sample_data a table_name limit
      = ("SELECT * FROM " ++ table_name ++ " LIMIT %s;", [limit]) ∧
    get_table_sample_data a table_name limit = get_table_sample_data a' table_name limit :=
  ⟨rfl, rfl⟩

/-- C9: the prompt renderer is a pure, deterministic function of its
snapshot: rendering an unchanged snapshot twice yields byte-identical
text. -/
theorem renderer_deterministic (s t : SchemaInfo) (h : s = t) :
    generate_llm_schema_text s = generate_llm_schema_text t :=
  congrArg generate_llm_schema_text h

/-- C9 witness: determinism at the concrete example snapshot. -/
theorem renderer_deterministic_witness :
    generate_llm_schema_text exampleSnapshot = generate_llm_schema_text exampleSnapshot :=
  renderer_deterministic exampleSnapshot exampleSnapshot rfl

/-- C10: every public operation preserves the invariant that the three
cache fields are all `None` or all populated with
`full_schema_text = renderer(schema_cache)`; construction and
`clear_cache` establish the all-`None` side. -/
theorem cache_fields_invariant (d : Int) (db : DB) (now : Int) (force_refresh : Bool)
    (query : String) (table_names : List String) (a : SchemaAgent) (h : cacheConsistent a) :
    cacheConsistent (SchemaAgent.init d) ∧
    cacheConsistent (clear_cache a) ∧
    cacheConsistent (extract_full_schema db now force_refresh a).2 ∧
    cacheConsistent (get_schema_for_llm db now force_refresh a).2 ∧
    cacheConsistent (get_relevant_tables db now query a).2 ∧
    cacheConsistent (get_partial_schema db now table_names a).2 ∧
    cacheConsistent (save_schema_to_file db now a).2 := by
  refine ⟨Or.inl ⟨rfl, rfl, rfl⟩, Or.inl ⟨rfl, rfl, rfl⟩,
    extract_preserves_cacheConsistent db now force_refresh a h, ?_, ?_, ?_, ?_⟩
  · unfold get_schema_for_llm
    split
    · exact h
    · have hc := extract_preserves_cacheConsistent db now force_refresh a h
      rcases hex : extract_full_schema db now force_refresh a with ⟨r, a'⟩
      rw [hex] at hc
      cases r <;> simp only [hex] <;> exact hc
  · unfold get_relevant_tables
    rcases a.schema_cache with _ | s
    · have hc := extract_preserves_cacheConsistent db now false a h
      rcases hex : extract_full_schema db now false a with ⟨r, a'⟩
      rw [hex] at hc
      cases r <;> simp only [hex] <;> exact hc
    · exact h
  · unfold get_partial_schema
    rcases a.schema_cache with _ | s
    · have hc := extract_preserves_cacheConsistent db now false a h
      rcases hex : extract_full_schema db now false a with ⟨r, a'⟩
      rw [hex] at hc
      cases r <;> simp only [hex] <;> exact hc
    · exact h
  · unfold save_schema_to_file
    rcases a.schema_cache with _ | s
    · have hc := extract_preserves_cacheConsistent db now false a h
      rcases hex : extract_full_schema db now false a with ⟨r, a'⟩
      rw [hex] at hc
      cases r <;> simp only [hex] <;> exact hc
    · exact h

/-- C10 witness: the invariant holds concretely through a clear, an
extraction against an unreachable database, and the read operations,
starting from a freshly constructed agent. -/
theorem cache_fields_invariant_witness :
    cacheConsistent (SchemaAgent.init 60) ∧
    cacheConsistent (clear_cache (SchemaAgent.init 60)) ∧
    cacheConsistent (extract_full_schema .unreachable 0 false (SchemaAgent.init 60)).2 ∧
    cacheConsistent (get_schema_for_llm .unreachable 0 false (SchemaAgent.init 60)).2 ∧
    cacheConsistent (get_relevant_tables .unreachable 0 "q" (SchemaAgent.init 60)).2 ∧
    cacheConsistent (get_partial_schema .unreachable 0 [] (SchemaAgent.init 60)).2 ∧
    cacheConsistent (save_schema_to_file .unreachable 0 (SchemaAgent.init 60)).2 :=
  cache_fields_invariant 60 .unreachable 0 false "q" [] (SchemaAgent.init 60)
    (Or.inl ⟨rfl, rfl, rfl⟩)

end ChatWithDB
